import Mathlib

/-!
Verification development for the database migration engine of this repository
(src/src/migrations): a shallow embedding of `types.ts`, `migrationManager.ts`
and `migrationService.ts` into Lean, with theorems settling the specification
claims about loading, ordering, checksums, execution, rollback, status
reporting and the startup policy gate.

Modelling conventions:
- Machine integers are `Nat` with explicit `% 2^32` where 32-bit overflow
  matters (the SHA-256 compression arithmetic).
- Asynchronous `up()` / `down()` bodies are modelled as a settle time plus an
  outcome (`PromiseSpec`); `Promise.race` settles with whichever promise
  settles first.
- The MongoDB record collection is a list of records; `updateOne`,
  `deleteOne`, `findOne` and the transactional scope (staged insert, commit,
  abort) follow MongoDB semantics as used by the code.
- Fallible code returns `Except` (or a result paired with an optional error
  where the post-state matters on failure).
-/

namespace App002

/-! ## SHA-256 (embedding of crypto.createHash("sha256") as used by
`generateChecksum` in src/src/migrations/types.ts) -/

namespace SHA256

def w32 : Nat := 4294967296

/-- Right rotation of a 32-bit word. -/
def rotr (n x : Nat) : Nat := ((x >>> n) ||| (x <<< (32 - n))) % w32

/-- Bitwise complement on 32 bits. -/
def bnot32 (x : Nat) : Nat := (w32 - 1) - (x % w32)

def smallSigma0 (x : Nat) : Nat := (rotr 7 x) ^^^ (rotr 18 x) ^^^ (x >>> 3)
def smallSigma1 (x : Nat) : Nat := (rotr 17 x) ^^^ (rotr 19 x) ^^^ (x >>> 10)
def bigSigma0 (x : Nat) : Nat := (rotr 2 x) ^^^ (rotr 13 x) ^^^ (rotr 22 x)
def bigSigma1 (x : Nat) : Nat := (rotr 6 x) ^^^ (rotr 11 x) ^^^ (rotr 25 x)

/-- The 64 SHA-256 round constants, written in decimal. -/
def K : List Nat :=
  [1116352408, 1899447441, 3049323471, 3921009573, 961987163, 1508970993,
   2453635748, 2870763221, 3624381080, 310598401, 607225278, 1426881987,
   1925078388, 2162078206, 2614888103, 3248222580, 3835390401, 4022224774,
   264347078, 604807628, 770255983, 1249150122, 1555081692, 1996064986,
   2554220882, 2821834349, 2952996808, 3210313671, 3336571891, 3584528711,
   113926993, 338241895, 666307205, 773529912, 1294757372, 1396182291,
   1695183700, 1986661051, 2177026350, 2456956037, 2730485921, 2820302411,
   3259730800, 3345764771, 3516065817, 3600352804, 4094571909, 275423344,
   430227734, 506948616, 659060556, 883997877, 958139571, 1322822218,
   1537002063, 1747873779, 1955562222, 2024104815, 2227730452, 2361852424,
   2428436474, 2756734187, 3204031479, 3329325298]

structure Hash where
  a : Nat
  b : Nat
  c : Nat
  d : Nat
  e : Nat
  f : Nat
  g : Nat
  h : Nat

def initHash : Hash :=
  ⟨1779033703, 3144134277, 1013904242, 2773480762,
   1359893119, 2600822924, 528734635, 1541459225⟩

/-- One SHA-256 compression round on the working state, for one round
constant paired with one schedule word. -/
def round (st : Hash) (kw : Nat × Nat) : Hash :=
  let s1 := bigSigma1 st.e
  let ch := (st.e &&& st.f) ^^^ (bnot32 st.e &&& st.g)
  let temp1 := (st.h + s1 + ch + kw.1 + kw.2) % w32
  let s0 := bigSigma0 st.a
  let maj := (st.a &&& st.b) ^^^ (st.a &&& st.c) ^^^ (st.b &&& st.c)
  let temp2 := (s0 + maj) % w32
  ⟨(temp1 + temp2) % w32, st.a, st.b, st.c, (st.d + temp1) % w32, st.e, st.f, st.g⟩

/-- Groups a byte list into big-endian 32-bit words. -/
def toWords : List Nat → List Nat
  | b0 :: b1 :: b2 :: b3 :: rest =>
    (((b0 * 256 + b1) * 256 + b2) * 256 + b3) :: toWords rest
  | _ => []

/-- Extends the 16 block words to the 64-word message schedule. -/
def extendSchedule (w16 : List Nat) : List Nat :=
  (List.range 48).foldl
    (fun w _ =>
      let n := w.length
      let x := (w.getD (n - 16) 0 + smallSigma0 (w.getD (n - 15) 0) +
        w.getD (n - 7) 0 + smallSigma1 (w.getD (n - 2) 0)) % w32
      w ++ [x]) w16

def compressBlock (h0 : Hash) (block : List Nat) : Hash :=
  let w := extendSchedule (toWords block)
  let st := (K.zip w).foldl round h0
  ⟨(h0.a + st.a) % w32, (h0.b + st.b) % w32, (h0.c + st.c) % w32,
   (h0.d + st.d) % w32, (h0.e + st.e) % w32, (h0.f + st.f) % w32,
   (h0.g + st.g) % w32, (h0.h + st.h) % w32⟩

/-- Splits a byte list into 64-byte chunks; structural recursion on a fuel
bound (the list length suffices, as every step consumes at least one byte). -/
def chunks64Fuel : Nat → List Nat → List (List Nat)
  | 0, _ => []
  | _, [] => []
  | fuel + 1, x :: xs => ((x :: xs).take 64) :: chunks64Fuel fuel ((x :: xs).drop 64)

/-- Splits a byte list into 64-byte chunks. -/
def chunks64 (l : List Nat) : List (List Nat) := chunks64Fuel l.length l

/-- Big-endian byte encoding of a value into the given number of bytes. -/
def beBytes : Nat → Nat → List Nat
  | 0, _ => []
  | k + 1, v => beBytes k (v / 256) ++ [v % 256]

/-- SHA-256 padding: a 0x80 byte, zeros to 56 mod 64, then the 64-bit
big-endian bit length. -/
def padMessage (msg : List Nat) : List Nat :=
  let z := (119 - (msg.length % 64)) % 64
  msg ++ 128 :: List.replicate z 0 ++ beBytes 8 (msg.length * 8)

def sha256Words (msg : List Nat) : Hash :=
  (chunks64 (padMessage msg)).foldl compressBlock initHash

def hexDigit (n : Nat) : Char :=
  "0123456789abcdef".data.getD n '0'

/-- Lowercase hex rendering of a 32-bit word, 8 digits. -/
def wordHex (v : Nat) : List Char :=
  (List.range 8).map (fun i => hexDigit ((v >>> (4 * (7 - i))) % 16))

/-- Lowercase 64-hex-character digest of a byte list. -/
def sha256hex (msg : List Nat) : String :=
  let hs := sha256Words msg
  String.mk (([hs.a, hs.b, hs.c, hs.d, hs.e, hs.f, hs.g, hs.h]).flatMap wordHex)

end SHA256

/-- UTF-8 encoding of one code point. -/
def utf8EncodeCharNat (c : Char) : List Nat :=
  let n := c.toNat
  if n < 128 then [n]
  else if n < 2048 then [192 ||| (n >>> 6), 128 ||| (n &&& 63)]
  else if n < 65536 then
    [224 ||| (n >>> 12), 128 ||| ((n >>> 6) &&& 63), 128 ||| (n &&& 63)]
  else
    [240 ||| (n >>> 18), 128 ||| ((n >>> 12) &&& 63),
     128 ||| ((n >>> 6) &&& 63), 128 ||| (n &&& 63)]

def utf8Bytes (s : String) : List Nat := s.data.flatMap utf8EncodeCharNat

/-! ## Comparator-based sorting (model of JS Array.prototype.sort, which is
stable; insertion sort is stable as well) -/

section SortBy

variable {α : Type} (le : α → α → Bool)

/-- Inserts an element in front of the first list element it compares
less-or-equal to. -/
def orderedInsertBy (a : α) : List α → List α
  | [] => [a]
  | b :: l => if le a b then a :: b :: l else b :: orderedInsertBy a l

/-- Stable insertion sort with a Bool comparator. -/
def insertionSortBy : List α → List α
  | [] => []
  | b :: l => orderedInsertBy le b (insertionSortBy l)

theorem mem_orderedInsertBy (a x : α) :
    ∀ l : List α, x ∈ orderedInsertBy le a l ↔ x = a ∨ x ∈ l
  | [] => by simp [orderedInsertBy]
  | b :: l => by
    by_cases h : le a b = true
    · simp [orderedInsertBy, h]
    · simp only [orderedInsertBy, if_neg h, List.mem_cons,
        mem_orderedInsertBy a x l]
      tauto

theorem mem_insertionSortBy (x : α) :
    ∀ l : List α, x ∈ insertionSortBy le l ↔ x ∈ l
  | [] => by simp [insertionSortBy]
  | b :: l => by
    simp [insertionSortBy, mem_orderedInsertBy, mem_insertionSortBy x l]

theorem perm_orderedInsertBy (a : α) :
    ∀ l : List α, List.Perm (orderedInsertBy le a l) (a :: l)
  | [] => List.Perm.refl _
  | b :: l => by
    by_cases h : le a b = true
    · simp [orderedInsertBy, h]
    · simpa [orderedInsertBy, h] using
        ((perm_orderedInsertBy a l).cons b).trans (List.Perm.swap a b l)

theorem perm_insertionSortBy : ∀ l : List α, List.Perm (insertionSortBy le l) l
  | [] => List.Perm.refl _
  | b :: l =>
    (perm_orderedInsertBy le b (insertionSortBy le l)).trans
      ((perm_insertionSortBy l).cons b)

theorem pairwise_orderedInsertBy
    (htot : ∀ a b : α, le a b = true ∨ le b a = true)
    (htrans : ∀ a b c : α, le a b = true → le b c = true → le a c = true)
    (a : α) : ∀ l : List α,
      l.Pairwise (fun x y => le x y = true) →
      (orderedInsertBy le a l).Pairwise (fun x y => le x y = true)
  | [], _ => by simp [orderedInsertBy]
  | b :: l, h => by
    by_cases hab : le a b = true
    · simp only [orderedInsertBy, if_pos hab]
      refine List.Pairwise.cons (fun y hy => ?_) h
      rcases List.mem_cons.mp hy with rfl | hy
      · exact hab
      · exact htrans a b y hab (List.rel_of_pairwise_cons h hy)
    · have hba : le b a = true := (htot a b).resolve_left hab
      simp only [orderedInsertBy, if_neg hab]
      refine List.Pairwise.cons (fun y hy => ?_)
        (pairwise_orderedInsertBy htot htrans a l h.of_cons)
      rcases (mem_orderedInsertBy le a y l).mp hy with rfl | hy
      · exact hba
      · exact List.rel_of_pairwise_cons h hy

theorem sorted_insertionSortBy
    (htot : ∀ a b : α, le a b = true ∨ le b a = true)
    (htrans : ∀ a b c : α, le a b = true → le b c = true → le a c = true) :
    ∀ l : List α, (insertionSortBy le l).Pairwise (fun x y => le x y = true)
  | [] => List.Pairwise.nil
  | b :: l =>
    pairwise_orderedInsertBy le htot htrans b _
      (sorted_insertionSortBy htot htrans l)

end SortBy

/-- Lexicographic comparison of character lists by code point, the model of
String.prototype.localeCompare as a total preorder on version strings. -/
def charListLe : List Char → List Char → Bool
  | [], _ => true
  | _ :: _, [] => false
  | a :: as, b :: bs =>
    if a.toNat < b.toNat then true
    else if b.toNat < a.toNat then false
    else charListLe as bs

/-- Lexicographic less-or-equal on strings. -/
def strLe (a b : String) : Bool := charListLe a.data b.data

theorem charListLe_total : ∀ as bs, charListLe as bs = true ∨ charListLe bs as = true
  | [], _ => Or.inl rfl
  | _ :: _, [] => Or.inr rfl
  | a :: as, b :: bs => by
    rcases Nat.lt_trichotomy a.toNat b.toNat with h | h | h
    · exact Or.inl (by simp [charListLe, h])
    · rcases charListLe_total as bs with ih | ih
      · exact Or.inl (by simp [charListLe, h, ih])
      · exact Or.inr (by simp [charListLe, h, ih])
    · exact Or.inr (by simp [charListLe, h])

theorem charListLe_trans :
    ∀ as bs cs, charListLe as bs = true → charListLe bs cs = true →
      charListLe as cs = true
  | [], _, _, _, _ => rfl
  | a :: as, [], _, h, _ => by simp [charListLe] at h
  | _ :: _, _ :: _, [], _, h => by simp [charListLe] at h
  | a :: as, b :: bs, c :: cs, h1, h2 => by
    simp only [charListLe] at h1 h2 ⊢
    by_cases hab : a.toNat < b.toNat
    · by_cases hbc : b.toNat < c.toNat
      · simp [Nat.lt_trans hab hbc]
      · by_cases hcb : c.toNat < b.toNat
        · simp [hbc, hcb] at h2
        · have hac : a.toNat < c.toNat := by omega
          simp [hac]
    · by_cases hba : b.toNat < a.toNat
      · simp [hab, hba] at h1
      · by_cases hbc : b.toNat < c.toNat
        · have hac : a.toNat < c.toNat := by omega
          simp [hac]
        · by_cases hcb : c.toNat < b.toNat
          · simp [hbc, hcb] at h2
          · have h1' : charListLe as bs = true := by simpa [hab, hba] using h1
            have h2' : charListLe bs cs = true := by simpa [hbc, hcb] using h2
            have hac : ¬ a.toNat < c.toNat := by omega
            have hca : ¬ c.toNat < a.toNat := by omega
            simp [hac, hca, charListLe_trans as bs cs h1' h2']

theorem strLe_total (a b : String) : strLe a b = true ∨ strLe b a = true :=
  charListLe_total a.data b.data

theorem strLe_trans (a b c : String) :
    strLe a b = true → strLe b c = true → strLe a c = true :=
  charListLe_trans a.data b.data c.data

/-- Embedding of generateChecksum (src/src/migrations/types.ts line 61):
the SHA-256 hex digest of the UTF-8 bytes of the content string. -/
def generateChecksum (content : String) : String :=
  SHA256.sha256hex (utf8Bytes content)

/-! ## Data model (src/src/migrations/types.ts, migration.model) -/

/-- The status enum of the persisted migration record schema. -/
inductive RecStatus
  | SUCCESS
  | FAILED
  | PENDING
deriving DecidableEq, Repr

/-- Sum view of Except, used to derive decidable equality. -/
def exceptToSum {ε α : Type} : Except ε α → ε ⊕ α
  | Except.error e => Sum.inl e
  | Except.ok a => Sum.inr a

instance {ε α : Type} [DecidableEq ε] [DecidableEq α] : DecidableEq (Except ε α) :=
  fun a b =>
    decidable_of_iff (exceptToSum a = exceptToSum b)
      (by cases a <;> cases b <;> simp [exceptToSum])

/-- Model of an asynchronous body (a Promise): the time at which it settles
and its outcome (resolution or rejection with an error message). -/
structure PromiseSpec where
  time : Nat
  result : Except String Unit
deriving DecidableEq, Repr

/-- A loaded migration definition (interface IMigration in types.ts). The
`source` field carries the migration file's source text, and `up` / `down`
are models of the two asynchronous operations. -/
structure IMigration where
  name : String
  version : String
  description : String
  source : String
  up : PromiseSpec
  down : PromiseSpec
deriving DecidableEq, Repr

/-- A persisted migration record (migration.model schema): one document per
attempted migration. `appliedAt` is a timestamp (model: Nat). -/
structure MigrationRecord where
  name : String
  version : String
  description : String
  appliedAt : Nat
  executionTimeMs : Nat
  checksum : String
  status : RecStatus
  errorMessage : Option String
deriving DecidableEq, Repr

/-- The record collection: committed documents in insertion order. -/
abbrev Store := List MigrationRecord

/-- interface MigrationResult in types.ts. -/
structure MigrationResult where
  success : Bool
  executionTimeMs : Nat
  error : Option String
deriving DecidableEq, Repr

/-- interface MigrationStatus in types.ts (derived, not persisted). -/
structure MigrationStatus where
  name : String
  version : String
  description : String
  applied : Bool
  appliedAt : Option Nat
  status : RecStatus
  errorMessage : Option String
deriving DecidableEq, Repr

/-- interface MigrationConfig in types.ts. -/
structure MigrationConfig where
  migrationsPath : String
  collectionName : String
  autoRun : Bool
  validateChecksums : Bool
  timeoutMs : Nat
deriving DecidableEq, Repr

/-- DEFAULT_MIGRATION_CONFIG in types.ts. -/
def DEFAULT_MIGRATION_CONFIG : MigrationConfig :=
  { migrationsPath := "src/migrations/scripts"
    collectionName := "migrations"
    autoRun := false
    validateChecksums := true
    timeoutMs := 60000 }

/-! ## MongoDB store and Promise primitives as used by the engine -/

/-- Mongo updateOne with no upsert option: applies the update to the first
document matching the name filter; when nothing matches, nothing is
written. -/
def updateOneByName (st : Store) (nm : String)
    (f : MigrationRecord → MigrationRecord) : Store :=
  match st with
  | [] => []
  | r :: rs => if r.name = nm then f r :: rs else r :: updateOneByName rs nm f

/-- Mongo findOne on the name filter: the first matching document. -/
def findOneByName (st : Store) (nm : String) : Option MigrationRecord :=
  st.find? (fun r => r.name = nm)

/-- Mongo deleteOne on the name filter: removes the first matching
document. -/
def deleteOneByName (st : Store) (nm : String) : Store :=
  match st with
  | [] => []
  | r :: rs => if r.name = nm then rs else r :: deleteOneByName rs nm

/-- Model of Promise.race of two promises: settles with whichever settles
first (a tie goes to the first argument, the migration body). -/
def promiseRace (p q : PromiseSpec) : PromiseSpec :=
  if p.time ≤ q.time then p else q

/-- The rejection timer built in runSingleMigration / rollback: rejects with
the given message when timeoutMs elapses. -/
def timeoutPromise (t : Nat) (msg : String) : PromiseSpec :=
  { time := t, result := Except.error msg }

/-! ## MigrationManager (src/src/migrations/migrationManager.ts) -/

/-- The checksum stored on the record created by runSingleMigration
(migrationManager.ts line 361): generateChecksum(migration.name +
migration.version). -/
def recordChecksum (m : IMigration) : String :=
  generateChecksum (m.name ++ m.version)

/-- Embedding of runSingleMigration (migrationManager.ts lines 337-439).
A transactional scope is opened and a PENDING record inserted inside it;
up() is raced against the timeout timer. On success the record is updated
to SUCCESS and the scope committed (the store gains the SUCCESS record).
On failure the scope is aborted (the staged PENDING insert is discarded)
and Migration.updateOne({name}, {FAILED, ...}) runs outside the
transaction with no upsert option. The elapsed time is the settle time of
the race. The new record's appliedAt defaults to the insertion time
(modelled by the store length, a monotone clock during a batch). -/
def runSingleMigration (cfg : MigrationConfig) (m : IMigration) (st : Store) :
    MigrationResult × Store :=
  let newRecord : MigrationRecord :=
    { name := m.name
      version := m.version
      description := m.description
      appliedAt := st.length
      executionTimeMs := 0
      checksum := recordChecksum m
      status := RecStatus.PENDING
      errorMessage := none }
  let raced := promiseRace m.up (timeoutPromise cfg.timeoutMs "Migration timeout")
  match raced.result with
  | Except.ok _ =>
    ({ success := true, executionTimeMs := raced.time, error := none },
     st ++ [{ newRecord with status := RecStatus.SUCCESS, executionTimeMs := raced.time }])
  | Except.error e =>
    ({ success := false, executionTimeMs := raced.time, error := some e },
     updateOneByName st m.name (fun r =>
       { r with status := RecStatus.FAILED, errorMessage := some e,
                executionTimeMs := raced.time }))

/-- True when the store holds a record with this name and status SUCCESS
(membership in the name set of Migration.find({status:"SUCCESS"})). -/
def hasSuccessRecord (st : Store) (nm : String) : Bool :=
  st.any (fun r => r.name = nm && r.status = RecStatus.SUCCESS)

/-- Sorting by the version string, as the JS comparator
(a, b) => a.version.localeCompare(b.version), modelled as lexicographic
string order. -/
def sortByVersion (l : List IMigration) : List IMigration :=
  insertionSortBy (fun a b => strLe a.version b.version) l

/-- Embedding of getPendingMigrations (migrationManager.ts lines 262-285):
loaded definitions with no SUCCESS record, sorted ascending by version. -/
def getPendingMigrations (defs : List IMigration) (st : Store) :
    List IMigration :=
  sortByVersion (defs.filter (fun m => !hasSuccessRecord st m.name))

/-- Embedding of getStatus (migrationManager.ts lines 211-257): one entry
per loaded definition (joined with its record when present, else PENDING),
plus one entry per orphaned record whose definition file no longer exists,
all sorted ascending by version. -/
def getStatus (defs : List IMigration) (st : Store) : List MigrationStatus :=
  let appliedMigrations := insertionSortBy (fun r s => Nat.ble r.appliedAt s.appliedAt) st
  let fromDefs := defs.map (fun m =>
    let found := appliedMigrations.find? (fun r => r.name = m.name)
    { name := m.name
      version := m.version
      description := m.description
      applied := found.isSome
      appliedAt := found.map (fun r => r.appliedAt)
      status := (found.map (fun r => r.status)).getD RecStatus.PENDING
      errorMessage := found.bind (fun r => r.errorMessage) : MigrationStatus })
  let orphans := (appliedMigrations.filter
      (fun r => !defs.any (fun m => m.name = r.name))).map (fun r =>
    { name := r.name
      version := r.version
      description := r.description
      applied := true
      appliedAt := some r.appliedAt
      status := r.status
      errorMessage := r.errorMessage : MigrationStatus })
  insertionSortBy (fun a b => strLe a.version b.version) (fromDefs ++ orphans)

/-- The fail-fast loop of migrate (migrationManager.ts lines 308-319): run
each pending migration in order, stop right after the first failure. -/
def runPendingList (cfg : MigrationConfig) :
    List IMigration → Store → List MigrationResult × Store
  | [], st => ([], st)
  | m :: ms, st =>
    let step := runSingleMigration cfg m st
    if step.1.success then
      let rest := runPendingList cfg ms step.2
      (step.1 :: rest.1, rest.2)
    else
      ([step.1], step.2)

/-- Embedding of migrate (migrationManager.ts lines 290-332): computes the
pending list and runs it fail-fast ([] when nothing is pending). -/
def migrate (cfg : MigrationConfig) (defs : List IMigration) (st : Store) :
    List MigrationResult × Store :=
  runPendingList cfg (getPendingMigrations defs st) st

/-- Lookup of a loaded definition by name (the this.migrations Map). -/
def findDef (defs : List IMigration) (nm : String) : Option IMigration :=
  defs.find? (fun m => m.name = nm)

/-- Embedding of rollback (migrationManager.ts lines 444-520). A missing
definition or a record that is absent or not in SUCCESS yields a failure
result thrown internally and converted by the outer catch (success false,
executionTimeMs 0, store unchanged). Otherwise down() is raced against the
rollback timer; on success the record is deleted inside the transaction; a
down() failure aborts the scope and the outer catch returns the failure
result with the store untouched. -/
def rollback (cfg : MigrationConfig) (defs : List IMigration) (nm : String)
    (st : Store) : MigrationResult × Store :=
  match findDef defs nm with
  | none =>
    ({ success := false, executionTimeMs := 0,
       error := some ("Migration " ++ nm ++ " not found") }, st)
  | some m =>
    match findOneByName st nm with
    | none =>
      ({ success := false, executionTimeMs := 0,
         error := some ("Migration " ++ nm ++ " is not applied or failed") }, st)
    | some r =>
      if r.status = RecStatus.SUCCESS then
        let raced := promiseRace m.down (timeoutPromise cfg.timeoutMs "Rollback timeout")
        match raced.result with
        | Except.ok _ =>
          ({ success := true, executionTimeMs := raced.time, error := none },
           deleteOneByName st nm)
        | Except.error e =>
          ({ success := false, executionTimeMs := 0, error := some e }, st)
      else
        ({ success := false, executionTimeMs := 0,
           error := some ("Migration " ++ nm ++ " is not applied or failed") }, st)

/-! ## Loader and validation (migrationManager.ts lines 59-177) -/

/-- Model of a dynamically imported migration module before shape
validation (duck typing): each declared field is an optional string (none
when absent or not a string), and hasUp / hasDown model the presence of
callable up / down properties. -/
structure RawMigration where
  name : Option String
  version : Option String
  description : Option String
  hasUp : Bool
  hasDown : Bool
  source : String
  up : PromiseSpec
  down : PromiseSpec
deriving DecidableEq, Repr

/-- JS truthiness of an optional string field: absent, non-string and empty
strings are all falsy. -/
def truthyString : Option String → Bool
  | none => false
  | some s => s ≠ ""

/-- Embedding of validateMigration (migrationManager.ts lines 141-177):
per-file shape validation only; name, version and description must be
truthy strings and up / down callable. -/
def validateMigration (m : RawMigration) : Bool :=
  truthyString m.name && truthyString m.version && truthyString m.description &&
    m.hasUp && m.hasDown

/-- The definition produced from a validated module. -/
def toIMigration (m : RawMigration) : IMigration :=
  { name := m.name.getD ""
    version := m.version.getD ""
    description := m.description.getD ""
    source := m.source
    up := m.up
    down := m.down }

/-- JS Map.set semantics for this.migrations.set(name, migration): an
existing key keeps its position and its value is replaced; a new key is
appended. -/
def mapSet (defs : List IMigration) (d : IMigration) : List IMigration :=
  if defs.any (fun x => x.name = d.name) then
    defs.map (fun x => if x.name = d.name then d else x)
  else
    defs ++ [d]

/-- The loading loop of loadMigrations (migrationManager.ts lines 84-101):
files in sorted filename order are validated and inserted into the map;
an invalid shape aborts the whole load with an error. -/
def loadMigrationsAux (acc : List IMigration) :
    List RawMigration → Except String (List IMigration)
  | [] => Except.ok acc
  | f :: fs =>
    if validateMigration f then
      loadMigrationsAux (mapSet acc (toIMigration f)) fs
    else
      Except.error "Invalid migration structure"

/-- Embedding of loadMigrations over the (already filtered and sorted)
migration files of the directory. -/
def loadMigrations (files : List RawMigration) :
    Except String (List IMigration) :=
  loadMigrationsAux [] files

/-! ## MigrationService (src/src/migrations/migrationService.ts) -/

/-- The environment the manager initialization depends on: store
reachability (mongoose.connection.db), whether the migrations directory
exists, and its (filtered, filename-sorted) migration files. -/
structure ManagerEnv where
  dbReachable : Bool
  dirExists : Bool
  files : List RawMigration
deriving DecidableEq, Repr

/-- Embedding of MigrationManager.initialize (migrationManager.ts lines
34-54): ensure the collection (fails when the store is unreachable), then
load definitions; a missing directory means zero migrations (warn and
continue); an error is wrapped into a DatabaseError message. -/
def managerInitialize (env : ManagerEnv) : Except String (List IMigration) :=
  if !env.dbReachable then
    Except.error "Migration initialization failed: Database connection not available"
  else if !env.dirExists then
    Except.ok []
  else
    match loadMigrations env.files with
    | Except.ok defs => Except.ok defs
    | Except.error e => Except.error ("Migration initialization failed: " ++ e)

/-- Observable state of a MigrationService instance. managerInitCount is
ghost instrumentation counting how many times the underlying manager's
initialize() actually ran (the spy of the spec's test). -/
structure ServiceState where
  isInitialized : Bool
  defs : List IMigration
  managerInitCount : Nat
deriving DecidableEq, Repr

/-- Embedding of MigrationService.initialize (migrationService.ts lines
26-41): a no-op when already initialized; otherwise the manager
initialization runs, and only on success is the guard flag set. The second
component is the error message thrown, when any. -/
def serviceInitialize (env : ManagerEnv) (s : ServiceState) :
    ServiceState × Option String :=
  if s.isInitialized then
    (s, none)
  else
    match managerInitialize env with
    | Except.ok defs =>
      ({ isInitialized := true, defs := defs,
         managerInitCount := s.managerInitCount + 1 }, none)
    | Except.error e =>
      ({ s with managerInitCount := s.managerInitCount + 1 },
       some ("Migration service initialization failed: " ++ e))

/-- Embedding of hasPendingMigrations at the manager-data level
(migrationService.ts lines 46-60): pendingMigrations.length > 0. -/
def hasPendingMigrations (defs : List IMigration) (st : Store) : Bool :=
  (getPendingMigrations defs st).length > 0

/-- The {total, applied, pending, failed} summary record. -/
structure StatusSummary where
  total : Nat
  applied : Nat
  pending : Nat
  failed : Nat
deriving DecidableEq, Repr

/-- Embedding of getStatusSummary (migrationService.ts lines 65-94):
applied counts entries with applied && status SUCCESS, failed counts
status FAILED, pending counts entries with applied false. -/
def getStatusSummary (defs : List IMigration) (st : Store) : StatusSummary :=
  let status := getStatus defs st
  { total := status.length
    applied := (status.filter (fun m => m.applied && m.status = RecStatus.SUCCESS)).length
    pending := (status.filter (fun m => !m.applied)).length
    failed := (status.filter (fun m => m.status = RecStatus.FAILED)).length }

/-- Service-level hasPendingMigrations with the auto-initialize guard: the
result or the propagated (wrapped) initialization error, together with the
service state after the call. -/
def svcHasPendingMigrations (env : ManagerEnv) (s : ServiceState) (st : Store) :
    Except String Bool × ServiceState :=
  let init := serviceInitialize env s
  match init.2 with
  | some e => (Except.error ("Failed to check pending migrations: " ++ e), init.1)
  | none => (Except.ok (hasPendingMigrations init.1.defs st), init.1)

/-- Service-level getStatusSummary with the auto-initialize guard. -/
def svcGetStatusSummary (env : ManagerEnv) (s : ServiceState) (st : Store) :
    Except String StatusSummary × ServiceState :=
  let init := serviceInitialize env s
  match init.2 with
  | some e => (Except.error ("Failed to get migration status summary: " ++ e), init.1)
  | none => (Except.ok (getStatusSummary init.1.defs st), init.1)

/-- Embedding of runPendingMigrations (migrationService.ts lines 99-144):
{success, migrationsRun}; success is true only when every attempted
migration in the batch succeeded. The store is returned alongside. -/
def svcRunPendingMigrations (cfg : MigrationConfig) (env : ManagerEnv)
    (s : ServiceState) (st : Store) :
    Except String (Bool × Nat) × ServiceState × Store :=
  let init := serviceInitialize env s
  match init.2 with
  | some e => (Except.error ("Failed to run migrations: " ++ e), init.1, st)
  | none =>
    let pending := getPendingMigrations init.1.defs st
    if pending.length = 0 then
      (Except.ok (true, 0), init.1, st)
    else
      let run := migrate cfg init.1.defs st
      let successCount := (run.1.filter (fun r => r.success)).length
      (Except.ok (successCount = run.1.length, successCount), init.1, run.2)

/-- Embedding of checkMigrationHealth (migrationService.ts lines 149-192):
purely observational; its own try/catch swallows every error, so it always
returns normally with the post-call service state. -/
def checkMigrationHealth (env : ManagerEnv) (s : ServiceState) (st : Store) :
    ServiceState :=
  (svcGetStatusSummary env s st).2

/-- What runOnStartup did: the state and store afterwards, whether only the
health check ran, whether pending migrations were executed, and whether an
exception from the migration path was caught and swallowed. -/
structure StartupOutcome where
  state : ServiceState
  store : Store
  healthChecked : Bool
  migrationsRan : Bool
  errorCaught : Bool
deriving DecidableEq, Repr

/-- Embedding of runOnStartup (migrationService.ts lines 197-254). The
policy gate reads process.env.AUTO_MIGRATE and process.env.NODE_ENV at
call time; migrations auto-run only when AUTO_MIGRATE === "true" and
NODE_ENV === "development"; otherwise only checkMigrationHealth runs. The
surrounding try/catch converts every thrown error into a log line, so the
function is total and never propagates an error. -/
def runOnStartup (cfg : MigrationConfig) (env : ManagerEnv)
    (autoMigrate nodeEnv : Option String) (s : ServiceState) (st : Store) :
    StartupOutcome :=
  if autoMigrate ≠ some "true" then
    { state := checkMigrationHealth env s st, store := st,
      healthChecked := true, migrationsRan := false, errorCaught := false }
  else if nodeEnv ≠ some "development" then
    { state := checkMigrationHealth env s st, store := st,
      healthChecked := true, migrationsRan := false, errorCaught := false }
  else
    match svcHasPendingMigrations env s st with
    | (Except.error _, s1) =>
      { state := s1, store := st, healthChecked := false,
        migrationsRan := false, errorCaught := true }
    | (Except.ok false, s1) =>
      { state := s1, store := st, healthChecked := false,
        migrationsRan := false, errorCaught := false }
    | (Except.ok true, s1) =>
      match svcRunPendingMigrations cfg env s1 st with
      | (Except.error _, s2, st2) =>
        { state := s2, store := st2, healthChecked := false,
          migrationsRan := false, errorCaught := true }
      | (Except.ok _, s2, st2) =>
        { state := s2, store := st2, healthChecked := false,
          migrationsRan := true, errorCaught := false }

/-! ## Theorems settling the claims -/

/-- The ascending-by-version ordering used by the engine. -/
def versionLe (a b : IMigration) : Prop := strLe a.version b.version = true

/-- Membership characterization of the pending list. -/
theorem mem_getPendingMigrations (defs : List IMigration) (st : Store)
    (m : IMigration) :
    m ∈ getPendingMigrations defs st ↔
      m ∈ defs ∧ ¬ ∃ r ∈ st, r.name = m.name ∧ r.status = RecStatus.SUCCESS := by
  unfold getPendingMigrations sortByVersion
  rw [mem_insertionSortBy, List.mem_filter]
  simp [hasSuccessRecord, List.any_eq_true]

/-- The pending list is ascending by version. -/
theorem getPendingMigrations_sorted (defs : List IMigration) (st : Store) :
    List.Pairwise versionLe (getPendingMigrations defs st) :=
  sorted_insertionSortBy (fun a b : IMigration => strLe a.version b.version)
    (fun a b => strLe_total a.version b.version)
    (fun a b c => strLe_trans a.version b.version c.version) _

/-- C5: for every set of loaded definitions and every record-store state,
getPendingMigrations returns exactly those loaded definitions that have no
record with status SUCCESS (including definitions whose only record is
FAILED or PENDING), sorted ascending by version. -/
theorem getPendingMigrations_spec (defs : List IMigration) (st : Store) :
    (∀ m : IMigration, m ∈ getPendingMigrations defs st ↔
      m ∈ defs ∧ ¬ ∃ r ∈ st, r.name = m.name ∧ r.status = RecStatus.SUCCESS) ∧
    List.Pairwise versionLe (getPendingMigrations defs st) :=
  ⟨mem_getPendingMigrations defs st, getPendingMigrations_sorted defs st⟩

/-- Witness for C5 at a concrete state: a definition whose only record is
FAILED is pending. -/
theorem getPendingMigrations_spec_witness :
    let m : IMigration := ⟨"w5", "1", "d", "s", ⟨1, Except.ok ()⟩, ⟨1, Except.ok ()⟩⟩
    let r : MigrationRecord := ⟨"w5", "1", "d", 0, 7, "c", RecStatus.FAILED, some "x"⟩
    m ∈ getPendingMigrations [m] [r] :=
  ((getPendingMigrations_spec _ _).1 _).mpr (by decide)

/-- The fail-fast loop attempts at most one run per pending migration. -/
theorem runPendingList_length_le (cfg : MigrationConfig) :
    ∀ (l : List IMigration) (st : Store),
      (runPendingList cfg l st).1.length ≤ l.length
  | [], _ => Nat.le_refl _
  | m :: ms, st => by
    have ih := runPendingList_length_le cfg ms (runSingleMigration cfg m st).2
    simp only [runPendingList]
    cases h : (runSingleMigration cfg m st).1.success
    · simp [h]
    · simp only [h, if_true, List.length_cons]
      exact Nat.succ_le_succ ih

/-- In the fail-fast loop, every result before the last one is a success. -/
theorem runPendingList_dropLast_success (cfg : MigrationConfig) :
    ∀ (l : List IMigration) (st : Store),
      ∀ r ∈ (runPendingList cfg l st).1.dropLast, r.success = true
  | [], _ => by simp [runPendingList]
  | m :: ms, st => by
    have ih := runPendingList_dropLast_success cfg ms (runSingleMigration cfg m st).2
    simp only [runPendingList]
    cases h : (runSingleMigration cfg m st).1.success
    · simp [h]
    · simp only [h, if_true]
      cases hrest : (runPendingList cfg ms (runSingleMigration cfg m st).2).1 with
      | nil => simp
      | cons x xs =>
        rw [hrest] at ih
        rw [List.dropLast_cons₂]
        intro r hr
        rcases List.mem_cons.mp hr with rfl | hr
        · exact h
        · exact ih r hr

/-- When the fail-fast loop stops before exhausting the pending list, the
last result it returned is the failure that stopped it. -/
theorem runPendingList_early_stop (cfg : MigrationConfig) :
    ∀ (l : List IMigration) (st : Store),
      (runPendingList cfg l st).1.length < l.length →
      ∃ r, (runPendingList cfg l st).1.getLast? = some r ∧ r.success = false
  | [], _ => by simp [runPendingList]
  | m :: ms, st => by
    have ih := runPendingList_early_stop cfg ms (runSingleMigration cfg m st).2
    simp only [runPendingList]
    cases h : (runSingleMigration cfg m st).1.success
    · intro _
      exact ⟨(runSingleMigration cfg m st).1, by simp [h], h⟩
    · simp only [h, if_true, List.length_cons, List.length_cons]
      intro hlen
      obtain ⟨r, hr, hs⟩ := ih (Nat.lt_of_succ_lt_succ hlen)
      refine ⟨r, ?_, hs⟩
      cases hrest : (runPendingList cfg ms (runSingleMigration cfg m st).2).1 with
      | nil => rw [hrest] at hr; simp at hr
      | cons x xs =>
        rw [hrest] at hr
        rw [List.getLast?_cons_cons]
        exact hr

/-- C2: migrate returns one result per migration actually attempted, a
prefix of the pending list: at most one entry per pending migration, every
entry before the last is a success, a batch that stopped before exhausting
the pending list ends in the failure that stopped it (later migrations are
never attempted), and the attempted prefix is ascending by version. -/
theorem migrate_failfast (cfg : MigrationConfig) (defs : List IMigration)
    (st : Store) :
    (migrate cfg defs st).1.length ≤ (getPendingMigrations defs st).length ∧
    (∀ r ∈ (migrate cfg defs st).1.dropLast, r.success = true) ∧
    ((migrate cfg defs st).1.length < (getPendingMigrations defs st).length →
      ∃ r, (migrate cfg defs st).1.getLast? = some r ∧ r.success = false) ∧
    List.Pairwise versionLe
      ((getPendingMigrations defs st).take (migrate cfg defs st).1.length) :=
  ⟨runPendingList_length_le cfg _ st,
   runPendingList_dropLast_success cfg _ st,
   runPendingList_early_stop cfg _ st,
   (getPendingMigrations_sorted defs st).sublist (List.take_sublist _ _)⟩

/-- Witness for C2 at a concrete failing batch: the first of two pending
migrations fails, so exactly one result is returned and it is the failure. -/
theorem migrate_failfast_witness :
    let d1 : IMigration := ⟨"w2a", "1", "d", "s", ⟨1, Except.error "x"⟩, ⟨1, Except.ok ()⟩⟩
    let d2 : IMigration := ⟨"w2b", "2", "d", "s", ⟨1, Except.ok ()⟩, ⟨1, Except.ok ()⟩⟩
    (migrate DEFAULT_MIGRATION_CONFIG [d1, d2] []).1.length <
      (getPendingMigrations [d1, d2] []).length ∧
    ∃ r, (migrate DEFAULT_MIGRATION_CONFIG [d1, d2] []).1.getLast? = some r ∧
      r.success = false :=
  ⟨by decide, (migrate_failfast DEFAULT_MIGRATION_CONFIG _ _).2.2.1 (by decide)⟩

/-- C7: a migration whose up() does not resolve within timeoutMs loses the
race against the timer: the result is a failure whose error message is
exactly "Migration timeout" and whose elapsed time is the timer's timeoutMs
(the race settles when the timer expires, not when the body would finish). -/
theorem runSingleMigration_timeout (cfg : MigrationConfig) (m : IMigration)
    (st : Store) (h : cfg.timeoutMs < m.up.time) :
    (runSingleMigration cfg m st).1.success = false ∧
    (runSingleMigration cfg m st).1.error = some "Migration timeout" ∧
    (runSingleMigration cfg m st).1.executionTimeMs = cfg.timeoutMs := by
  have hrace : promiseRace m.up (timeoutPromise cfg.timeoutMs "Migration timeout") =
      timeoutPromise cfg.timeoutMs "Migration timeout" := by
    unfold promiseRace timeoutPromise
    rw [if_neg]
    simpa using Nat.not_le.mpr h
  simp only [runSingleMigration]
  rw [hrace]
  simp [timeoutPromise]

/-- Witness for C7: a body that would settle at 70000ms against the default
60000ms timer. -/
theorem runSingleMigration_timeout_witness :
    let m : IMigration := ⟨"w7", "1", "d", "s", ⟨70000, Except.ok ()⟩, ⟨1, Except.ok ()⟩⟩
    DEFAULT_MIGRATION_CONFIG.timeoutMs < m.up.time ∧
    (runSingleMigration DEFAULT_MIGRATION_CONFIG m []).1.error = some "Migration timeout" :=
  ⟨by decide, (runSingleMigration_timeout _ _ _ (by decide)).2.1⟩

/-- C6: rollback is non-throwing and conservative. When no SUCCESS record
exists for the name it returns a failure result (an error message, success
false) and leaves the store unchanged, whether or not the definition is
loaded; when the definition is loaded and a SUCCESS record exists, it runs
down() raced against the rollback timer, deletes the record when down()
resolves, and on a down() failure returns the error in the result and
leaves the record untouched. -/
theorem rollback_spec (cfg : MigrationConfig) (defs : List IMigration)
    (nm : String) (st : Store) :
    ((∀ r ∈ st, r.name = nm → r.status ≠ RecStatus.SUCCESS) →
      (rollback cfg defs nm st).1.success = false ∧
      (rollback cfg defs nm st).1.error.isSome = true ∧
      (rollback cfg defs nm st).2 = st) ∧
    (∀ m r, findDef defs nm = some m → findOneByName st nm = some r →
      r.status = RecStatus.SUCCESS →
      ((∀ u : Unit,
          (promiseRace m.down (timeoutPromise cfg.timeoutMs "Rollback timeout")).result =
            Except.ok u →
          (rollback cfg defs nm st).1.success = true ∧
          (rollback cfg defs nm st).2 = deleteOneByName st nm) ∧
       (∀ e : String,
          (promiseRace m.down (timeoutPromise cfg.timeoutMs "Rollback timeout")).result =
            Except.error e →
          (rollback cfg defs nm st).1.success = false ∧
          (rollback cfg defs nm st).1.error = some e ∧
          (rollback cfg defs nm st).2 = st))) := by
  constructor
  · intro hno
    unfold rollback
    cases hd : findDef defs nm with
    | none => exact ⟨rfl, rfl, rfl⟩
    | some m =>
      cases hf : findOneByName st nm with
      | none => exact ⟨rfl, rfl, rfl⟩
      | some r =>
        have hrmem : r ∈ st := List.mem_of_find?_eq_some hf
        have hrname : r.name = nm := by
          have hp := List.find?_some hf
          simpa using hp
        simp [hno r hrmem hrname]
  · intro m r hd hf hs
    constructor
    · intro u hu
      constructor <;> simp [rollback, hd, hf, hs, hu]
    · intro e he
      refine ⟨?_, ?_, ?_⟩ <;> simp [rollback, hd, hf, hs, he]

/-- Witness for C6: rolling back a migration whose only record is FAILED
fails without modifying the store. -/
theorem rollback_spec_witness :
    let m : IMigration := ⟨"w6", "1", "d", "s", ⟨1, Except.ok ()⟩, ⟨1, Except.ok ()⟩⟩
    let r : MigrationRecord := ⟨"w6", "1", "d", 0, 7, "c", RecStatus.FAILED, some "x"⟩
    (rollback DEFAULT_MIGRATION_CONFIG [m] "w6" [r]).1.success = false ∧
    (rollback DEFAULT_MIGRATION_CONFIG [m] "w6" [r]).1.error.isSome = true ∧
    (rollback DEFAULT_MIGRATION_CONFIG [m] "w6" [r]).2 = [r] :=
  (rollback_spec DEFAULT_MIGRATION_CONFIG _ _ _).1 (by decide)

/-- A migration definition paired with a twin that shares its name and
version but differs in description and source text. -/
def checksumWitnessA : IMigration :=
  ⟨"add_fields", "20250721000001", "first version of the body",
   "async up() \x7b await collection.updateMany(A); \x7d",
   ⟨1, Except.ok ()⟩, ⟨1, Except.ok ()⟩⟩

/-- The twin of checksumWitnessA: same name and version, different source. -/
def checksumWitnessB : IMigration :=
  ⟨"add_fields", "20250721000001", "second version of the body",
   "async up() \x7b await collection.updateMany(B); \x7d",
   ⟨1, Except.ok ()⟩, ⟨1, Except.ok ()⟩⟩

/-- C3 counterexample: the checksum persisted on a Migration Record is not
a function of the migration's source content — two migrations with
different source content (and different descriptions) receive the same
checksum, because the code hashes name + version only. -/
theorem recordChecksum_ignores_source :
    checksumWitnessA.source ≠ checksumWitnessB.source ∧
    checksumWitnessA.description ≠ checksumWitnessB.description ∧
    recordChecksum checksumWitnessA = recordChecksum checksumWitnessB :=
  ⟨by decide, by decide, rfl⟩

/-- C3 amended: the checksum persisted on each Migration Record is
generateChecksum(name + version), a pure function of the migration's name
and version only: two migrations with equal name and version receive equal
checksums whatever their source content, and a successful run appends to
the store exactly one record carrying this checksum. -/
theorem recordChecksum_name_version (cfg : MigrationConfig)
    (m1 m2 : IMigration) (st : Store)
    (h1 : m1.name = m2.name) (h2 : m1.version = m2.version) :
    recordChecksum m1 = recordChecksum m2 ∧
    (∀ u : Unit,
      (promiseRace m1.up (timeoutPromise cfg.timeoutMs "Migration timeout")).result =
        Except.ok u →
      (runSingleMigration cfg m1 st).2 = st ++
        [{ name := m1.name, version := m1.version, description := m1.description,
           appliedAt := st.length,
           executionTimeMs :=
             (promiseRace m1.up (timeoutPromise cfg.timeoutMs "Migration timeout")).time,
           checksum := recordChecksum m1, status := RecStatus.SUCCESS,
           errorMessage := none }]) := by
  constructor
  · unfold recordChecksum
    rw [h1, h2]
  · intro u hu
    simp only [runSingleMigration]
    rw [hu]

/-- Witness for the amended C3 at the concrete twin pair. -/
theorem recordChecksum_name_version_witness :
    recordChecksum checksumWitnessA = recordChecksum checksumWitnessB ∧
    (runSingleMigration DEFAULT_MIGRATION_CONFIG checksumWitnessA []).2 = [] ++
      [{ name := checksumWitnessA.name, version := checksumWitnessA.version,
         description := checksumWitnessA.description, appliedAt := 0,
         executionTimeMs := 1, checksum := recordChecksum checksumWitnessA,
         status := RecStatus.SUCCESS, errorMessage := none }] :=
  ⟨(recordChecksum_name_version DEFAULT_MIGRATION_CONFIG checksumWitnessA
      checksumWitnessB [] rfl rfl).1,
   (recordChecksum_name_version DEFAULT_MIGRATION_CONFIG checksumWitnessA
      checksumWitnessB [] rfl rfl).2 () rfl⟩

/-- Two valid migration files that declare the same migration name. -/
def dupRawA : RawMigration :=
  ⟨some "add_index", some "20250101000000", some "first file", true, true,
   "file A", ⟨1, Except.ok ()⟩, ⟨1, Except.ok ()⟩⟩

/-- The second file with the duplicate name. -/
def dupRawB : RawMigration :=
  ⟨some "add_index", some "20250202000000", some "second file", true, true,
   "file B", ⟨1, Except.ok ()⟩, ⟨1, Except.ok ()⟩⟩

/-- C4 counterexample: loading a directory holding two valid definitions
with the same name does not fail — it succeeds, and the later file's
definition silently replaces the earlier one in the name-keyed map. -/
theorem loadMigrations_duplicate_accepted :
    (toIMigration dupRawA).name = (toIMigration dupRawB).name ∧
    loadMigrations [dupRawA, dupRawB] = Except.ok [toIMigration dupRawB] := by
  constructor
  · rfl
  · rfl

/-- Replacing the value at an existing key leaves the name list unchanged. -/
theorem map_name_mapSet_replace (defs : List IMigration) (d : IMigration) :
    (defs.map (fun x => if x.name = d.name then d else x)).map (fun x => x.name) =
      defs.map (fun x => x.name) := by
  induction defs with
  | nil => rfl
  | cons x xs ih =>
    by_cases h : x.name = d.name
    · simp [h, ih]
    · simp [h, ih]

/-- Map.set preserves uniqueness of the keys. -/
theorem mapSet_names_nodup (defs : List IMigration) (d : IMigration)
    (h : (defs.map (fun x => x.name)).Nodup) :
    ((mapSet defs d).map (fun x => x.name)).Nodup := by
  by_cases hmem : defs.any (fun x => x.name = d.name) = true
  · have hif : mapSet defs d = defs.map (fun x => if x.name = d.name then d else x) := by
      unfold mapSet
      exact if_pos hmem
    rw [hif, map_name_mapSet_replace]
    exact h
  · have hif : mapSet defs d = defs ++ [d] := by
      unfold mapSet
      exact if_neg hmem
    have hnotin : d.name ∉ defs.map (fun x => x.name) := by
      intro hcon
      rcases List.mem_map.mp hcon with ⟨x, hx, hname⟩
      exact hmem (List.any_eq_true.mpr ⟨x, hx, by simp [hname]⟩)
    rw [hif]
    simp [List.nodup_append, h, hnotin]

/-- The load loop never rejects duplicates: on shape-valid input it always
returns ok, and the resulting map has unique names. -/
theorem loadMigrationsAux_ok :
    ∀ (files : List RawMigration) (acc : List IMigration),
      (∀ f ∈ files, validateMigration f = true) →
      (acc.map (fun x => x.name)).Nodup →
      ∃ defs, loadMigrationsAux acc files = Except.ok defs ∧
        (defs.map (fun x => x.name)).Nodup
  | [], acc, _, hacc => ⟨acc, rfl, hacc⟩
  | f :: fs, acc, hval, hacc => by
    have hf := hval f (List.mem_cons_self f fs)
    simp only [loadMigrationsAux, hf, if_true]
    exact loadMigrationsAux_ok fs (mapSet acc (toIMigration f))
      (fun g hg => hval g (List.mem_cons_of_mem f hg))
      (mapSet_names_nodup acc (toIMigration f) hacc)

/-- C4 amended: duplicate names are not a load-time failure; for every
directory of shape-valid migration files (duplicate names included),
loading succeeds, later files silently overwrite earlier ones with the same
name, and the loaded map ends up with unique names. -/
theorem loadMigrations_no_duplicate_check (files : List RawMigration)
    (hval : ∀ f ∈ files, validateMigration f = true) :
    ∃ defs, loadMigrations files = Except.ok defs ∧
      (defs.map (fun x => x.name)).Nodup :=
  loadMigrationsAux_ok files [] hval (by simp)

/-- Witness for the amended C4 at the duplicate-name directory. -/
theorem loadMigrations_no_duplicate_check_witness :
    ∃ defs, loadMigrations [dupRawA, dupRawB] = Except.ok defs ∧
      (defs.map (fun x => x.name)).Nodup :=
  loadMigrations_no_duplicate_check [dupRawA, dupRawB] (by decide)

/-- C8: the startup policy gate. Pending migrations are executed only when
AUTO_MIGRATE is exactly "true" and NODE_ENV is exactly "development"; in
every other combination of those two inputs only the health check is
performed and no migration runs. Exceptions never propagate: the embedding
returns a plain StartupOutcome for every input (the inner calls return
Except and runOnStartup handles every error branch), and in particular,
when the gate is open and the migration path throws (fresh service against
an unreachable store) the error is caught and swallowed with no migration
run. -/
theorem runOnStartup_policy_gate (cfg : MigrationConfig) (env : ManagerEnv)
    (autoMigrate nodeEnv : Option String) (s : ServiceState) (st : Store) :
    ((runOnStartup cfg env autoMigrate nodeEnv s st).migrationsRan = true →
      autoMigrate = some "true" ∧ nodeEnv = some "development") ∧
    (¬(autoMigrate = some "true" ∧ nodeEnv = some "development") →
      (runOnStartup cfg env autoMigrate nodeEnv s st).healthChecked = true ∧
      (runOnStartup cfg env autoMigrate nodeEnv s st).migrationsRan = false) ∧
    (env.dbReachable = false → s.isInitialized = false →
      autoMigrate = some "true" → nodeEnv = some "development" →
      (runOnStartup cfg env autoMigrate nodeEnv s st).errorCaught = true ∧
      (runOnStartup cfg env autoMigrate nodeEnv s st).migrationsRan = false) := by
  by_cases ha : autoMigrate = some "true"
  · by_cases hn : nodeEnv = some "development"
    · refine ⟨fun _ => ⟨ha, hn⟩, fun hcon => absurd ⟨ha, hn⟩ hcon, ?_⟩
      intro hdb hinit _ _
      constructor <;>
        simp [runOnStartup, ha, hn, svcHasPendingMigrations, serviceInitialize,
          hinit, managerInitialize, hdb]
    · refine ⟨?_, fun _ => ?_, ?_⟩
      · intro hran
        simp [runOnStartup, ha, hn] at hran
      · constructor <;> simp [runOnStartup, ha, hn]
      · intro _ _ _ hnn
        exact absurd hnn hn
  · refine ⟨?_, fun _ => ?_, ?_⟩
    · intro hran
      simp [runOnStartup, ha] at hran
    · constructor <;> simp [runOnStartup, ha]
    · intro _ _ haa _
      exact absurd haa ha

/-- Witness for C8: with AUTO_MIGRATE set to "false" in development, only
the health check runs; and with the gate open against an unreachable
store, the failure is swallowed. -/
theorem runOnStartup_policy_gate_witness :
    let env : ManagerEnv := ⟨false, true, []⟩
    let s : ServiceState := ⟨false, [], 0⟩
    ((runOnStartup DEFAULT_MIGRATION_CONFIG env (some "false")
        (some "development") s []).healthChecked = true ∧
      (runOnStartup DEFAULT_MIGRATION_CONFIG env (some "false")
        (some "development") s []).migrationsRan = false) ∧
    ((runOnStartup DEFAULT_MIGRATION_CONFIG env (some "true")
        (some "development") s []).errorCaught = true ∧
      (runOnStartup DEFAULT_MIGRATION_CONFIG env (some "true")
        (some "development") s []).migrationsRan = false) :=
  ⟨(runOnStartup_policy_gate DEFAULT_MIGRATION_CONFIG _ _ _ _ _).2.1 (by decide),
   (runOnStartup_policy_gate DEFAULT_MIGRATION_CONFIG _ _ _ _ _).2.2 rfl rfl rfl rfl⟩

/-- C9: after a first successful serviceInitialize call, a second call is a
pure no-op: it returns the same state with no error, and in particular the
manager initialization count (the number of times the load/connect work
ran) does not change. -/
theorem serviceInitialize_idempotent (env : ManagerEnv) (s : ServiceState)
    (h : (serviceInitialize env s).2 = none) :
    serviceInitialize env (serviceInitialize env s).1 =
      ((serviceInitialize env s).1, none) ∧
    (serviceInitialize env (serviceInitialize env s).1).1.managerInitCount =
      (serviceInitialize env s).1.managerInitCount := by
  cases hi : s.isInitialized with
  | false =>
    cases hm : managerInitialize env with
    | ok defs => constructor <;> simp [serviceInitialize, hi, hm]
    | error e =>
      exfalso
      simp [serviceInitialize, hi, hm] at h
  | true => constructor <;> simp [serviceInitialize, hi]

/-- Witness for C9: a fresh service against a reachable store whose
migrations directory is missing (zero migrations). -/
theorem serviceInitialize_idempotent_witness :
    let env : ManagerEnv := ⟨true, false, []⟩
    let s : ServiceState := ⟨false, [], 0⟩
    (serviceInitialize env s).2 = none ∧
    serviceInitialize env (serviceInitialize env s).1 =
      ((serviceInitialize env s).1, none) :=
  ⟨by decide, (serviceInitialize_idempotent _ _ (by decide)).1⟩

/-- find? after sorting succeeds exactly when some element satisfies the
predicate. -/
theorem find?_isSome_insertionSortBy {α : Type} (le : α → α → Bool)
    (l : List α) (p : α → Bool) :
    ((insertionSortBy le l).find? p).isSome = l.any p := by
  rw [Bool.eq_iff_iff, List.find?_isSome, List.any_eq_true]
  constructor
  · rintro ⟨x, hx, hp⟩
    exact ⟨x, (mem_insertionSortBy le x l).mp hx, hp⟩
  · rintro ⟨x, hx, hp⟩
    exact ⟨x, (mem_insertionSortBy le x l).mpr hx, hp⟩

/-- Sorting does not change how many elements satisfy a predicate. -/
theorem length_filter_insertionSortBy {α : Type} (le : α → α → Bool)
    (l : List α) (p : α → Bool) :
    ((insertionSortBy le l).filter p).length = (l.filter p).length :=
  ((perm_insertionSortBy le l).filter p).length_eq

/-- The pending count of the status summary counts exactly the loaded
definitions with no record at all: an orphaned record contributes applied
:= true, and a definition entry has applied false exactly when no record
carries its name. -/
theorem getStatusSummary_pending_eq (defs : List IMigration) (st : Store) :
    (getStatusSummary defs st).pending =
      (defs.filter (fun m => !(st.any (fun r => r.name = m.name)))).length := by
  simp only [getStatusSummary, getStatus]
  rw [length_filter_insertionSortBy, List.filter_append, List.length_append]
  have horph :
      List.filter (fun m => !m.applied)
        (List.map (fun r =>
          ({ name := r.name, version := r.version, description := r.description,
             applied := true, appliedAt := some r.appliedAt, status := r.status,
             errorMessage := r.errorMessage : MigrationStatus }))
          (List.filter (fun r => !defs.any (fun m => m.name = r.name))
            (insertionSortBy (fun r s => Nat.ble r.appliedAt s.appliedAt) st))) =
        [] := by
    apply List.filter_eq_nil_iff.mpr
    intro a ha
    rcases List.mem_map.mp ha with ⟨r, _, rfl⟩
    simp
  rw [horph, List.length_nil, Nat.add_zero, List.filter_map, List.length_map]
  apply congrArg List.length
  apply List.filter_congr
  intro m _
  simp only [Function.comp_apply, find?_isSome_insertionSortBy]

/-- C10: the status summary's pending count includes only definitions with
no record at all, while a definition whose record is FAILED is counted
under failed but neither under applied nor under pending; consequently, in
every state where some definition's only record is FAILED and every other
definition has SUCCESS records, hasPendingMigrations returns true while
getStatusSummary reports pending = 0. -/
theorem statusSummary_pending_vs_hasPending (defs : List IMigration)
    (st : Store) (d0 : IMigration) (hd0 : d0 ∈ defs)
    (hall : ∀ m ∈ defs, ∃ r ∈ st, r.name = m.name)
    (hfail : ∀ r ∈ st, r.name = d0.name → r.status = RecStatus.FAILED)
    (_hsucc : ∀ m ∈ defs, m.name ≠ d0.name → ∀ r ∈ st, r.name = m.name →
      r.status = RecStatus.SUCCESS) :
    (getStatusSummary defs st).pending =
      (defs.filter (fun m => !(st.any (fun r => r.name = m.name)))).length ∧
    hasPendingMigrations defs st = true ∧
    (getStatusSummary defs st).pending = 0 := by
  refine ⟨getStatusSummary_pending_eq defs st, ?_, ?_⟩
  · have hd0p : d0 ∈ getPendingMigrations defs st := by
      rw [mem_getPendingMigrations]
      refine ⟨hd0, ?_⟩
      rintro ⟨r, hr, hname, hstat⟩
      have hF := hfail r hr hname
      rw [hF] at hstat
      exact RecStatus.noConfusion hstat
    unfold hasPendingMigrations
    rw [decide_eq_true_eq]
    exact List.length_pos.mpr (List.ne_nil_of_mem hd0p)
  · rw [getStatusSummary_pending_eq]
    rw [List.length_eq_zero]
    apply List.filter_eq_nil_iff.mpr
    intro m hm
    rcases hall m hm with ⟨r, hr, hname⟩
    have hany : st.any (fun r2 => r2.name = m.name) = true :=
      List.any_eq_true.mpr ⟨r, hr, by simp [hname]⟩
    simp [hany]

/-- Fixture for the C10 witness: a definition with a SUCCESS record. -/
def w10dA : IMigration := ⟨"wa", "1", "d", "s", ⟨1, Except.ok ()⟩, ⟨1, Except.ok ()⟩⟩

/-- Fixture for the C10 witness: a definition whose only record is FAILED. -/
def w10dB : IMigration := ⟨"wb", "2", "d", "s", ⟨1, Except.ok ()⟩, ⟨1, Except.ok ()⟩⟩

/-- SUCCESS record for w10dA. -/
def w10rA : MigrationRecord := ⟨"wa", "1", "d", 0, 5, "c", RecStatus.SUCCESS, none⟩

/-- FAILED record for w10dB. -/
def w10rB : MigrationRecord := ⟨"wb", "2", "d", 1, 5, "c", RecStatus.FAILED, some "x"⟩

/-- Witness for C10 at a concrete two-definition state. -/
theorem statusSummary_pending_vs_hasPending_witness :
    hasPendingMigrations [w10dA, w10dB] [w10rA, w10rB] = true ∧
    (getStatusSummary [w10dA, w10dB] [w10rA, w10rB]).pending = 0 :=
  ⟨(statusSummary_pending_vs_hasPending [w10dA, w10dB] [w10rA, w10rB] w10dB
      (by decide) (by decide) (by decide) (by decide)).2.1,
   (statusSummary_pending_vs_hasPending [w10dA, w10dB] [w10rA, w10rB] w10dB
      (by decide) (by decide) (by decide) (by decide)).2.2⟩

/-- Pending migration v1 of the C1 scenario: up() resolves at 5ms. -/
def bugV1 : IMigration :=
  ⟨"v1", "1", "first", "src v1", ⟨5, Except.ok ()⟩, ⟨1, Except.ok ()⟩⟩

/-- Pending migration v2 of the C1 scenario: up() rejects with "boom". -/
def bugV2 : IMigration :=
  ⟨"v2", "2", "second", "src v2", ⟨3, Except.error "boom"⟩, ⟨1, Except.ok ()⟩⟩

/-- Pending migration v3 of the C1 scenario: up() would resolve at 2ms. -/
def bugV3 : IMigration :=
  ⟨"v3", "3", "third", "src v3", ⟨2, Except.ok ()⟩, ⟨1, Except.ok ()⟩⟩

/-- C1 (code bug, evaluated at the failing input): for pending v1, v2, v3
against an empty store, with v2.up() throwing "boom", migrate() does
return exactly [success, failure "boom"] and never attempts v3 — but no
FAILED record survives the batch: the transactional PENDING insert was
rolled back by abortTransaction, and the out-of-transaction
Migration.updateOne({name: "v2"}, {status: FAILED, ...}) carries no upsert
option, so it matches no document and writes nothing. The store afterwards
holds no record named "v2" and getStatus reports v2 as PENDING, not
FAILED. -/
theorem migrate_failure_record_lost :
    ((migrate DEFAULT_MIGRATION_CONFIG [bugV1, bugV2, bugV3] []).1.map
        (fun r => (r.success, r.error)) =
      [(true, none), (false, some "boom")]) ∧
    findOneByName (migrate DEFAULT_MIGRATION_CONFIG [bugV1, bugV2, bugV3] []).2
      "v2" = none ∧
    ((getStatus [bugV1, bugV2, bugV3]
        (migrate DEFAULT_MIGRATION_CONFIG [bugV1, bugV2, bugV3] []).2).map
        (fun s => (s.name, s.status)) =
      [("v1", RecStatus.SUCCESS), ("v2", RecStatus.PENDING),
       ("v3", RecStatus.PENDING)]) :=
  ⟨by decide, by decide, by decide⟩

end App002
